import Mathlib

/-!
Shallow embedding of the GardensPost blog application
(`site_project/posts/views.py`, `site_project/posts/forms.py`,
`blogicum/blog/models.py`) and proofs about its visibility, ownership,
moderation, pagination and routing behaviour.

Strings are modelled as `List Char`; timestamps as `Int`; the database as
explicit lists of rows.  Django query-set operations are translated to
list operations; a `filter` through a nullable foreign key
(`category__is_published=True`) performs an inner join, so rows whose
foreign key is NULL are excluded — the embedding mirrors that.
-/

namespace GardensPost

/-- A user of the external identity provider (`django.contrib.auth`):
an id (primary key) and a unique username. -/
structure User where
  id : Nat
  username : List Char
deriving DecidableEq, Repr

/-- `blog/models.py` `Category`: title, description, unique slug,
`is_published` flag (from the abstract `PublishedModel`). -/
structure Category where
  id : Nat
  title : List Char
  description : List Char
  slug : List Char
  is_published : Bool
deriving DecidableEq, Repr

/-- `blog/models.py` `Location`: name and `is_published` flag. -/
structure Location where
  id : Nat
  name : List Char
  is_published : Bool
deriving DecidableEq, Repr

/-- `blog/models.py` `Post`: title, text, publication timestamp,
`is_published`, author, optional location and category.  The image field
is omitted (binary payload, irrelevant to every stated property). -/
structure Post where
  id : Nat
  title : List Char
  text : List Char
  pub_date : Int
  is_published : Bool
  author : User
  location : Option Location
  category : Option Category
deriving DecidableEq, Repr

/-- `blog/models.py` `Comment`: text, author, owning post, creation time. -/
structure Comment where
  id : Nat
  text : List Char
  author : User
  post_id : Nat
  created_at : Int
deriving DecidableEq, Repr

/-- The persistence layer: the stored posts and comments. -/
structure DB where
  posts : List Post
  comments : List Comment
deriving DecidableEq, Repr

/-! ## Moderation filter (`posts/forms.py`) -/

/-- `BAD_WORDS` from `posts/forms.py`. -/
def BAD_WORDS : List (List Char) :=
  [ ['б','л','я','т','ь'], ['б','л','я'], ['с','у','к','а'],
    ['п','и','з','д','е','ц'], ['п','и','з','д','а'],
    ['ж','о','п','а'], ['г','о','в','н','о'], ['х','у','й'] ]

/-- `WARNING` from `posts/forms.py`. -/
def WARNING : List Char := ['Н','е',' ','р','у','г','а','й','т','е','с','ь','!']

/-- Model of Python `str.lower` on the alphabets the application uses:
ASCII `A`–`Z` and Cyrillic `А`–`Я` map down by 0x20, `Ё` maps to `ё`. -/
def lowerChar (c : Char) : Char :=
  let n := c.toNat
  if 65 ≤ n ∧ n ≤ 90 then Char.ofNat (n + 32)
  else if 0x410 ≤ n ∧ n ≤ 0x42F then Char.ofNat (n + 0x20)
  else if n = 0x401 then Char.ofNat 0x451
  else c

/-- Python `word in text`: `word` occurs as a contiguous subsequence. -/
def containsSeq (w : List Char) (t : List Char) : Bool :=
  match t with
  | [] => w.isEmpty
  | _ :: rest => w.isPrefixOf t || containsSeq w rest

/-- `PostForm.clean`: lowercase the submitted `text` and reject with the
single message `WARNING` as soon as any entry of `BAD_WORDS` occurs in it. -/
def PostForm_clean (text : List Char) : Except (List Char) Unit :=
  let lowered_text := text.map lowerChar
  if BAD_WORDS.any (fun word => containsSeq word lowered_text)
  then .error WARNING
  else .ok ()

/-- `CommentForm.clean`: identical check on the comment `text`. -/
def CommentForm_clean (text : List Char) : Except (List Char) Unit :=
  let lowered_text := text.map lowerChar
  if BAD_WORDS.any (fun word => containsSeq word lowered_text)
  then .error WARNING
  else .ok ()

/-! ## Pagination (`PaginatorMixin` and Django `Paginator.get_page`) -/

/-- The `page` GET parameter: absent, non-numeric, or a number. -/
inductive PageParam where
  | missing
  | notAnInt
  | num (n : Int)
deriving DecidableEq, Repr

/-- Django `Paginator.num_pages` with default options: at least one page,
`⌈count / per_page⌉` otherwise. -/
def num_pages (count per_page : Nat) : Nat :=
  (max 1 count + per_page - 1) / per_page

/-- Django `Paginator.get_page`: non-numeric input falls back to page 1,
a number below 1 or above `num_pages` falls back to the last page. -/
def get_page_number (count per_page : Nat) (p : PageParam) : Nat :=
  match p with
  | .missing => 1
  | .notAnInt => 1
  | .num n =>
      if n < 1 then num_pages count per_page
      else if (num_pages count per_page : Int) < n then num_pages count per_page
      else n.toNat

/-- Django `Paginator.get_page` for a list of posts: the selected 1-based
page number together with that page's slice of the list. -/
def get_page (l : List Post) (per_page : Nat) (p : PageParam) : Nat × List Post :=
  let n := get_page_number l.length per_page p
  (n, (l.drop ((n - 1) * per_page)).take per_page)

/-- `PaginatorMixin.my_pagination`: builds the page for the requested page
number, then rebinds `page_obj` to page 1, which is what is returned. -/
def my_pagination (post_list : List Post) (page_number : PageParam) : Nat × List Post :=
  let page_obj := get_page post_list 10 page_number
  let page_obj := get_page post_list 10 (.num 1)
  page_obj

/-! ## Listing service (`posts/views.py`) -/

/-- Insert a post into a list already sorted by `pub_date` descending. -/
def insert_desc (p : Post) : List Post → List Post
  | [] => [p]
  | q :: rest =>
      if q.pub_date ≤ p.pub_date then p :: q :: rest
      else q :: insert_desc p rest

/-- `.order_by(-pub_date)`: sort by publication timestamp, newest first. -/
def order_by_pub_date_desc : List Post → List Post
  | [] => []
  | p :: rest => insert_desc p (order_by_pub_date_desc rest)

/-- The query-set clause `category__is_published=True`: an inner join on
the nullable `category` key, so a post with no category never matches. -/
def category_is_published_join (p : Post) : Bool :=
  match p.category with
  | some c => c.is_published
  | none => false

/-- The clause pair `category__slug=slug, category__is_published=True`:
again an inner join, a post with no category never matches. -/
def category_slug_published_join (slug : List Char) (p : Post) : Bool :=
  match p.category with
  | some c => c.slug == slug && c.is_published
  | none => false

/-- `IndexListView.queryset`: posts with `pub_date ≤ now`, published, and
a published category, newest first.  The `comment_count` annotation adds a
display column and does not change which rows appear, so it is omitted. -/
def IndexListView_queryset (db : DB) (now : Int) : List Post :=
  order_by_pub_date_desc (db.posts.filter (fun p =>
    decide (p.pub_date ≤ now) && p.is_published && category_is_published_join p))

/-- The spec's visibility predicate, for comparison with the query-sets:
`is_published = true` AND `pub_date ≤ now` AND (category is null OR
`category.is_published = true`). -/
def isPubliclyVisible (p : Post) (now : Int) : Bool :=
  p.is_published && decide (p.pub_date ≤ now) &&
    (p.category.isNone || (match p.category with
      | some c => c.is_published
      | none => false))

/-- Outcome of the category listing. -/
inductive CategoryResult where
  | notFound
  | page (title description : List Char) (page_obj : Nat × List Post)
deriving DecidableEq, Repr

/-- `CategoryListView.dispatch` plus `get_context_data`: build the
filtered, sorted post list; `get_object_or_404` on a category with the
requested slug and `is_published=True`; then `my_pagination`. -/
def CategoryListView_dispatch (db : DB) (cats : List Category) (now : Int)
    (category_slug : List Char) (page_number : PageParam) : CategoryResult :=
  let post_list := order_by_pub_date_desc (db.posts.filter (fun p =>
    category_slug_published_join category_slug p &&
      p.is_published && decide (p.pub_date ≤ now)))
  match cats.find? (fun c => c.slug == category_slug && c.is_published) with
  | none => .notFound
  | some category => .page category.title category.description
      (my_pagination post_list page_number)

/-- `ProfileListView.get_queryset`: `get_object_or_404` on the username
(`none` = NotFound); the owner viewing their own profile gets every one of
their posts, any other viewer gets the visibility-filtered ones (the same
inner join on `category__is_published=True` as the home page). -/
def ProfileListView_get_queryset (db : DB) (users : List User)
    (viewer_username : List Char) (username : List Char) (now : Int) :
    Option (List Post) :=
  match users.find? (fun u => u.username == username) with
  | none => none
  | some author =>
      if viewer_username == username then
        some (order_by_pub_date_desc
          (db.posts.filter (fun p => p.author == author)))
      else
        some (order_by_pub_date_desc (db.posts.filter (fun p =>
          p.author == author && decide (p.pub_date ≤ now) &&
            p.is_published && category_is_published_join p)))

/-! ## Mutation service (`posts/views.py`) -/

/-- Targets of `reverse`/`redirect` used by the posts app. -/
inductive Url where
  | index
  | post_detail (pk : Nat)
  | profile (username : List Char)
  | login
deriving DecidableEq, Repr

/-- Outcome of a mutation request: a redirect, a re-rendered form with a
validation message, or a NotFound response. -/
inductive Response where
  | redirect (target : Url)
  | formInvalid (msg : List Char)
  | notFound
deriving DecidableEq, Repr

/-- The fields `PostForm` accepts: `Meta.exclude = (author,)`, so every
model field except `author` (image again omitted). -/
structure PostFormInput where
  title : List Char
  text : List Char
  pub_date : Int
  is_published : Bool
  category : Option Category
  location : Option Location
deriving DecidableEq, Repr

/-- The raw request payload for a post form: the accepted fields plus a
possible `author` value in the POST data, which the form never reads. -/
structure PostRequestData where
  fields : PostFormInput
  author_input : Option User
deriving DecidableEq, Repr

/-- The single field `CommentForm` accepts (`fields = (text,)`). -/
structure CommentFormInput where
  text : List Char
deriving DecidableEq, Repr

/-- `PostCreateView`: `LoginRequiredMixin` redirects anonymous users to
login; `form_valid` stamps `instance.author = request.user`; on success
redirect to `posts:profile` for `request.user.username`.  `new_id` is the
primary key the persistence layer assigns to the new row. -/
def PostCreateView_post (db : DB) (request_user : Option User) (new_id : Nat)
    (raw : PostRequestData) : DB × Response :=
  match request_user with
  | none => (db, .redirect .login)
  | some user =>
      match PostForm_clean raw.fields.text with
      | .error msg => (db, .formInvalid msg)
      | .ok _ =>
          let p : Post :=
            { id := new_id, title := raw.fields.title, text := raw.fields.text,
              pub_date := raw.fields.pub_date,
              is_published := raw.fields.is_published,
              author := user, location := raw.fields.location,
              category := raw.fields.category }
          ({ db with posts := db.posts ++ [p] },
           .redirect (.profile user.username))

/-- The row `PostUpdateView` writes on success: the form fields, with
`form_valid` re-stamping `author := request.user`. -/
def updated_post (inst : Post) (user : User) (raw : PostRequestData) : Post :=
  { inst with
    title := raw.fields.title
    text := raw.fields.text
    pub_date := raw.fields.pub_date
    is_published := raw.fields.is_published
    category := raw.fields.category
    location := raw.fields.location
    author := user }

/-- `PostUpdateView.dispatch`: `get_object_or_404(Post, pk)`; a requester
other than the author is redirected to the post's detail page with no
write; otherwise the form is validated and, on success, the row is
replaced and the response redirects to `posts:post_detail` for `pk`. -/
def PostUpdateView_dispatch (db : DB) (request_user : Option User) (pk : Nat)
    (raw : PostRequestData) : DB × Response :=
  match request_user with
  | none => (db, .redirect .login)
  | some user =>
      match db.posts.find? (fun p => p.id == pk) with
      | none => (db, .notFound)
      | some inst =>
          if inst.author ≠ user then (db, .redirect (.post_detail pk))
          else
            match PostForm_clean raw.fields.text with
            | .error msg => (db, .formInvalid msg)
            | .ok _ =>
                ({ db with posts := db.posts.map (fun p =>
                    if p.id == pk then updated_post inst user raw else p) },
                 .redirect (.post_detail pk))

/-- `PostDeleteView.dispatch`: same ownership guard; on success the post
row is deleted (its comments cascade per `on_delete=CASCADE`) and the
response redirects to `posts:index` (`success_url`). -/
def PostDeleteView_dispatch (db : DB) (request_user : Option User) (pk : Nat) :
    DB × Response :=
  match request_user with
  | none => (db, .redirect .login)
  | some user =>
      match db.posts.find? (fun p => p.id == pk) with
      | none => (db, .notFound)
      | some post =>
          if post.author ≠ user then (db, .redirect (.post_detail post.id))
          else
            ({ posts := db.posts.filter (fun p => !(p.id == pk)),
               comments := db.comments.filter (fun c => !(c.post_id == pk)) },
             .redirect .index)

/-- `CommentCreateView`: `get_object_or_404(Post, pk)` for the parent;
`form_valid` stamps author and post; success redirects to the parent
post's detail page. -/
def CommentCreateView_post (db : DB) (request_user : Option User) (pk : Nat)
    (new_id : Nat) (now : Int) (raw : CommentFormInput) : DB × Response :=
  match request_user with
  | none => (db, .redirect .login)
  | some user =>
      match db.posts.find? (fun p => p.id == pk) with
      | none => (db, .notFound)
      | some posts_ =>
          match CommentForm_clean raw.text with
          | .error msg => (db, .formInvalid msg)
          | .ok _ =>
              let c : Comment :=
                { id := new_id
                  text := raw.text
                  author := user
                  post_id := posts_.id
                  created_at := now }
              ({ db with comments := db.comments ++ [c] },
               .redirect (.post_detail posts_.id))

/-- `CommentUpdateView.dispatch`: `get_object_or_404(Comment, comment_id)`;
a requester other than the comment's author is redirected to the parent
post's detail page (`instance.post_id`) with no write; otherwise the form
is validated and on success the text is replaced and the response
redirects to `posts:post_detail` for the URL's `pk`. -/
def CommentUpdateView_dispatch (db : DB) (request_user : Option User)
    (pk comment_id : Nat) (raw : CommentFormInput) : DB × Response :=
  match request_user with
  | none => (db, .redirect .login)
  | some user =>
      match db.comments.find? (fun c => c.id == comment_id) with
      | none => (db, .notFound)
      | some inst =>
          if inst.author ≠ user then (db, .redirect (.post_detail inst.post_id))
          else
            match CommentForm_clean raw.text with
            | .error msg => (db, .formInvalid msg)
            | .ok _ =>
                ({ db with comments := db.comments.map (fun c =>
                    if c.id == comment_id then { inst with text := raw.text }
                    else c) },
                 .redirect (.post_detail pk))

/-- `CommentDeleteView.dispatch`: same guard as the update; on success the
comment row is deleted and the response redirects to `posts:post_detail`
for the URL's `pk`. -/
def CommentDeleteView_dispatch (db : DB) (request_user : Option User)
    (pk comment_id : Nat) : DB × Response :=
  match request_user with
  | none => (db, .redirect .login)
  | some user =>
      match db.comments.find? (fun c => c.id == comment_id) with
      | none => (db, .notFound)
      | some inst =>
          if inst.author ≠ user then (db, .redirect (.post_detail inst.post_id))
          else
            ({ db with comments := db.comments.filter (fun c =>
                !(c.id == comment_id)) },
             .redirect (.post_detail pk))

/-! ## Helper lemmas -/

theorem mem_insert_desc (p q : Post) (l : List Post) :
    q ∈ insert_desc p l ↔ q = p ∨ q ∈ l := by
  induction l with
  | nil => simp [insert_desc]
  | cons a rest ih =>
      rw [insert_desc]
      by_cases h : a.pub_date ≤ p.pub_date
      · simp [h]
      · simp [h, ih]
        tauto

theorem mem_order_by_pub_date_desc (q : Post) (l : List Post) :
    q ∈ order_by_pub_date_desc l ↔ q ∈ l := by
  induction l with
  | nil => simp [order_by_pub_date_desc]
  | cons a rest ih => simp [order_by_pub_date_desc, mem_insert_desc, ih]

theorem category_is_published_join_iff (p : Post) :
    category_is_published_join p = true ↔
      ∃ c, p.category = some c ∧ c.is_published = true := by
  unfold category_is_published_join
  cases h : p.category with
  | none => simp [h]
  | some c => simp [h]

theorem category_slug_published_join_iff (slug : List Char) (p : Post) :
    category_slug_published_join slug p = true ↔
      ∃ c, p.category = some c ∧ c.slug = slug ∧ c.is_published = true := by
  unfold category_slug_published_join
  cases h : p.category with
  | none => simp [h]
  | some c => simp [h, and_assoc]

theorem PostForm_clean_error (text : List Char)
    (hw : ∃ w ∈ BAD_WORDS, containsSeq w (text.map lowerChar) = true) :
    PostForm_clean text = .error WARNING := by
  unfold PostForm_clean
  rw [if_pos]
  exact List.any_eq_true.mpr hw

theorem CommentForm_clean_error (text : List Char)
    (hw : ∃ w ∈ BAD_WORDS, containsSeq w (text.map lowerChar) = true) :
    CommentForm_clean text = .error WARNING := by
  unfold CommentForm_clean
  rw [if_pos]
  exact List.any_eq_true.mpr hw

theorem map_author_update (l : List Post) (pk : Nat) (inst new : Post)
    (hnd : (l.map Post.id).Nodup)
    (hfind : l.find? (fun p => p.id == pk) = some inst)
    (hauth : new.author = inst.author) :
    (l.map (fun p => if p.id == pk then new else p)).map Post.author
      = l.map Post.author := by
  induction l with
  | nil => simp at hfind
  | cons a rest ih =>
      simp only [List.map_cons, List.nodup_cons] at hnd
      by_cases h : a.id = pk
      · have hfa : (a :: rest).find? (fun p => p.id == pk) = some a := by
          simp [List.find?_cons_of_pos, h]
        rw [hfa] at hfind
        injection hfind with hinst
        subst hinst
        have htail : rest.map (fun p => if p.id == pk then new else p) = rest := by
          have hpt : ∀ p ∈ rest, (if p.id == pk then new else p) = p := by
            intro p hp
            have hne : p.id ≠ pk := fun hpk =>
              hnd.1 (List.mem_map.mpr ⟨p, hp, by rw [hpk, h]⟩)
            simp [hne]
          rw [List.map_congr_left hpt]
          simp
        simp only [List.map_cons, htail]
        congr 1
        simp [h, hauth]
      · have hfa : (a :: rest).find? (fun p => p.id == pk)
            = rest.find? (fun p => p.id == pk) := by
          simp [List.find?_cons_of_neg, h]
        rw [hfa] at hfind
        have hb : (a.id == pk) = false := by simp [h]
        simp only [List.map_cons, hb, Bool.false_eq_true, if_false]
        rw [ih hnd.2 hfind]

/-! ## Concrete fixtures used by witnesses and counterexamples -/

def alice : User := { id := 1, username := ['a','l','i','c','e'] }

def bob : User := { id := 2, username := ['b','o','b'] }

def gardenCat : Category :=
  { id := 1, title := ['G'], description := ['g'], slug := ['g'],
    is_published := true }

/-- A published, past-dated post (relative to `now = 100`) with no
category, authored by `alice`. -/
def nullCatPost : Post :=
  { id := 10, title := ['t'], text := ['o','k'], pub_date := 50,
    is_published := true, author := alice, location := none,
    category := none }

/-- The same post but filed under the published category `gardenCat`. -/
def catPost : Post :=
  { id := 11, title := ['u'], text := ['o','k'], pub_date := 60,
    is_published := true, author := alice, location := none,
    category := some gardenCat }

/-- A comment by `alice` on `catPost`. -/
def aliceComment : Comment :=
  { id := 20, text := ['h','i'], author := alice, post_id := 11,
    created_at := 70 }

/-- A two-row database: `catPost` and `nullCatPost`, one comment. -/
def db2 : DB := { posts := [catPost, nullCatPost], comments := [aliceComment] }

/-- A clean post submission. -/
def okPostInput : PostFormInput :=
  { title := ['t','2'], text := ['f','i','n','e'], pub_date := 80,
    is_published := true, category := some gardenCat, location := none }

/-- The clean submission with no author in the request payload. -/
def okPostRaw : PostRequestData := { fields := okPostInput, author_input := none }

/-- A clean comment submission. -/
def okCommentRaw : CommentFormInput := { text := ['f','i','n','e'] }

/-- A submission whose text contains the blocked word `жопа`. -/
def badPostRaw : PostRequestData :=
  { fields :=
      { okPostInput with text := ['а',' ','ж','о','п','а',' ','б'] }
    author_input := none }

/-- A comment submission containing a blocked word, uppercased. -/
def badCommentRaw : CommentFormInput := { text := ['С','У','К','А'] }

/-- A minimal post with a given id, used to build longer fixtures. -/
def plainPost (i : Nat) : Post :=
  { id := i, title := [], text := [], pub_date := 0, is_published := true,
    author := alice, location := none, category := some gardenCat }

/-- Eleven posts: enough for two pages at ten per page. -/
def elevenPosts : List Post := (List.range 11).map plainPost

/-- A submission with the blocked word `жопа` as the title and clean text. -/
def badTitleInput : PostFormInput :=
  { title := ['ж','о','п','а'], text := ['f','i','n','e'], pub_date := 80,
    is_published := true, category := some gardenCat, location := none }

/-! ## Claims -/

/-- C1, as stated: the home listing should contain exactly the posts that
are publicly visible in the spec's sense, and in particular a published,
past-dated post with a null category should appear.  Refuted: the query
clause `category__is_published=True` inner-joins the nullable category
key, so `nullCatPost` is publicly visible per the spec yet absent from
`IndexListView_queryset`. -/
theorem C1_null_category_counterexample :
    nullCatPost ∈ (DB.posts { posts := [nullCatPost], comments := [] }) ∧
    isPubliclyVisible nullCatPost 100 = true ∧
    nullCatPost ∉ IndexListView_queryset { posts := [nullCatPost], comments := [] } 100 := by
  refine ⟨by decide, by decide, by decide⟩

/-- C1 (amended): a post appears in the home listing iff it is stored,
`is_published = true`, `pub_date ≤ now`, and it has a category that is
itself published — a null-category post never appears. -/
theorem C1_home_listing_membership (db : DB) (now : Int) (p : Post) :
    p ∈ IndexListView_queryset db now ↔
      p ∈ db.posts ∧ p.is_published = true ∧ p.pub_date ≤ now ∧
        ∃ c, p.category = some c ∧ c.is_published = true := by
  unfold IndexListView_queryset
  rw [mem_order_by_pub_date_desc, List.mem_filter]
  simp [category_is_published_join_iff, and_assoc]
  tauto

/-- C2: for posts and comments, an update/delete transition goes through
iff the requester is the stored author; a requester other than the author
changes no stored row and is answered with a redirect to the (parent)
post's detail page, never an error status.  (Update transitions carry a
submitted form; the form text is assumed to pass validation, which is the
separate guard of C3.) -/
theorem C2_ownership_guard (db : DB) (user : User) (pk cid : Nat)
    (praw : PostRequestData) (craw : CommentFormInput) (p : Post) (c : Comment)
    (hp : db.posts.find? (fun x => x.id == pk) = some p)
    (hc : db.comments.find? (fun x => x.id == cid) = some c)
    (hpclean : PostForm_clean praw.fields.text = .ok ())
    (hcclean : CommentForm_clean craw.text = .ok ()) :
    (p.author ≠ user →
      PostUpdateView_dispatch db (some user) pk praw
        = (db, .redirect (.post_detail pk)) ∧
      PostDeleteView_dispatch db (some user) pk
        = (db, .redirect (.post_detail p.id))) ∧
    (p.author = user →
      PostUpdateView_dispatch db (some user) pk praw
        = ({ db with posts := db.posts.map (fun x =>
              if x.id == pk then updated_post p user praw else x) },
           .redirect (.post_detail pk)) ∧
      PostDeleteView_dispatch db (some user) pk
        = ({ posts := db.posts.filter (fun x => !(x.id == pk)),
             comments := db.comments.filter (fun x => !(x.post_id == pk)) },
           .redirect .index)) ∧
    (c.author ≠ user →
      CommentUpdateView_dispatch db (some user) pk cid craw
        = (db, .redirect (.post_detail c.post_id)) ∧
      CommentDeleteView_dispatch db (some user) pk cid
        = (db, .redirect (.post_detail c.post_id))) ∧
    (c.author = user →
      CommentUpdateView_dispatch db (some user) pk cid craw
        = ({ db with comments := db.comments.map (fun x =>
              if x.id == cid then { c with text := craw.text } else x) },
           .redirect (.post_detail pk)) ∧
      CommentDeleteView_dispatch db (some user) pk cid
        = ({ db with comments := db.comments.filter (fun x => !(x.id == cid)) },
           .redirect (.post_detail pk))) := by
  refine ⟨fun h => ⟨?_, ?_⟩, fun h => ⟨?_, ?_⟩, fun h => ⟨?_, ?_⟩, fun h => ⟨?_, ?_⟩⟩
  · simp [PostUpdateView_dispatch, hp, h]
  · simp [PostDeleteView_dispatch, hp, h]
  · simp [PostUpdateView_dispatch, hp, h, hpclean]
  · simp [PostDeleteView_dispatch, hp, h]
  · simp [CommentUpdateView_dispatch, hc, h]
  · simp [CommentDeleteView_dispatch, hc, h]
  · simp [CommentUpdateView_dispatch, hc, h, hcclean]
  · simp [CommentDeleteView_dispatch, hc, h]

/-- Witness for C2: in the concrete database `db2`, `bob` (who is not the
author) asking to update post 11 is redirected to that post's detail page
with the database unchanged. -/
theorem C2_ownership_guard_witness :
    PostUpdateView_dispatch db2 (some bob) 11 okPostRaw
      = (db2, .redirect (.post_detail 11)) := by
  have h := C2_ownership_guard db2 bob 11 20 okPostRaw okCommentRaw catPost
    aliceComment (by decide) (by decide) (by rfl) (by rfl)
  exact (h.1 (by decide)).1

/-- C3: whenever some entry of `BAD_WORDS` occurs case-insensitively in
the submitted text, post create/update and comment create/update are all
rejected with the single message `WARNING` and the database is unchanged.
(For the update transitions the requester is taken to be the stored
author, so nothing but the moderation filter is in the way.) -/
theorem C3_blocked_words_reject (db : DB) (user : User)
    (new_id pk cid : Nat) (now : Int)
    (praw : PostRequestData) (craw : CommentFormInput) (p : Post) (c : Comment)
    (hwp : ∃ w ∈ BAD_WORDS, containsSeq w (praw.fields.text.map lowerChar) = true)
    (hwc : ∃ w ∈ BAD_WORDS, containsSeq w (craw.text.map lowerChar) = true)
    (hp : db.posts.find? (fun x => x.id == pk) = some p)
    (hpa : p.author = user)
    (hc : db.comments.find? (fun x => x.id == cid) = some c)
    (hca : c.author = user) :
    PostCreateView_post db (some user) new_id praw = (db, .formInvalid WARNING) ∧
    PostUpdateView_dispatch db (some user) pk praw = (db, .formInvalid WARNING) ∧
    CommentCreateView_post db (some user) pk new_id now craw
      = (db, .formInvalid WARNING) ∧
    CommentUpdateView_dispatch db (some user) pk cid craw
      = (db, .formInvalid WARNING) := by
  have hpe := PostForm_clean_error praw.fields.text hwp
  have hce := CommentForm_clean_error craw.text hwc
  refine ⟨?_, ?_, ?_, ?_⟩
  · simp [PostCreateView_post, hpe]
  · simp [PostUpdateView_dispatch, hp, hpa, hpe]
  · simp [CommentCreateView_post, hp, hce]
  · simp [CommentUpdateView_dispatch, hc, hca, hce]

/-- Witness for C3: `alice` submitting a post whose text contains `жопа`
has the create rejected with the warning and `db2` untouched. -/
theorem C3_blocked_words_reject_witness :
    PostCreateView_post db2 (some alice) 30 badPostRaw
      = (db2, .formInvalid WARNING) := by
  have h := C3_blocked_words_reject db2 alice 30 11 20 100 badPostRaw
    badCommentRaw catPost aliceComment
    ⟨['ж','о','п','а'], by decide, by decide⟩
    ⟨['с','у','к','а'], by decide, by decide⟩
    (by decide) (by decide) (by decide) (by decide)
  exact h.1

/-- C4, recorded as a defect: `my_pagination` computes the page object for
the requested page number and then immediately recomputes it for page 1,
so a category-listing request for the valid page 2 of an eleven-post list
is answered with page 1, although Django's `get_page` would have selected
page 2. -/
theorem C4_pagination_always_first_page :
    my_pagination elevenPosts (.num 2) = (1, elevenPosts.take 10) ∧
    get_page elevenPosts 10 (.num 2) = (2, elevenPosts.drop 10) := by
  refine ⟨by decide, by decide⟩

/-- C5, as stated: a successful post create should redirect to the created
post's own detail page.  Refuted: `PostCreateView.get_success_url`
redirects to the creating user's profile page instead — here `alice`
successfully creates post 7 into an empty database and is sent to
`/profile/alice/`, not `/posts/7/`. -/
theorem C5_create_redirect_counterexample :
    (PostCreateView_post { posts := [], comments := [] } (some alice) 7
        okPostRaw).2 = Response.redirect (Url.profile alice.username) ∧
    Response.redirect (Url.profile alice.username)
      ≠ Response.redirect (Url.post_detail 7) := by
  refine ⟨by rfl, by decide⟩

/-- C5 (amended): successful post creation redirects to the creating
user's profile page; successful post update redirects to the post's
detail page; successful post deletion redirects to the home page; a
successful comment create redirects to the parent post's detail page, and
successful comment update/delete redirect to the detail page of the post
id named in the request URL (the parent post for well-formed URLs). -/
theorem C5_success_routing (db : DB) (user : User)
    (new_id pk cid : Nat) (now : Int)
    (praw : PostRequestData) (craw : CommentFormInput) (p : Post) (c : Comment)
    (hp : db.posts.find? (fun x => x.id == pk) = some p)
    (hpa : p.author = user)
    (hc : db.comments.find? (fun x => x.id == cid) = some c)
    (hca : c.author = user)
    (hpclean : PostForm_clean praw.fields.text = .ok ())
    (hcclean : CommentForm_clean craw.text = .ok ()) :
    (PostCreateView_post db (some user) new_id praw).2
      = .redirect (.profile user.username) ∧
    (PostUpdateView_dispatch db (some user) pk praw).2
      = .redirect (.post_detail pk) ∧
    (PostDeleteView_dispatch db (some user) pk).2 = .redirect .index ∧
    (CommentCreateView_post db (some user) pk new_id now craw).2
      = .redirect (.post_detail p.id) ∧
    (CommentUpdateView_dispatch db (some user) pk cid craw).2
      = .redirect (.post_detail pk) ∧
    (CommentDeleteView_dispatch db (some user) pk cid).2
      = .redirect (.post_detail pk) := by
  refine ⟨?_, ?_, ?_, ?_, ?_, ?_⟩
  · simp [PostCreateView_post, hpclean]
  · simp [PostUpdateView_dispatch, hp, hpa, hpclean]
  · simp [PostDeleteView_dispatch, hp, hpa]
  · simp [CommentCreateView_post, hp, hcclean]
  · simp [CommentUpdateView_dispatch, hc, hca, hcclean]
  · simp [CommentDeleteView_dispatch, hc, hca]

/-- Witness for C5: `alice` deleting her post 11 in `db2` is redirected to
the home page. -/
theorem C5_success_routing_witness :
    (PostDeleteView_dispatch db2 (some alice) 11).2 = .redirect .index := by
  have h := C5_success_routing db2 alice 30 11 20 100 okPostRaw okCommentRaw
    catPost aliceComment (by decide) (by decide) (by decide) (by decide)
    (by rfl) (by rfl)
  exact h.2.2.1

/-- C6: the category listing answers NotFound exactly when no stored
category both carries the requested slug and is itself published; in
particular an existing but unpublished category yields NotFound. -/
theorem C6_category_not_found (db : DB) (cats : List Category) (now : Int)
    (slug : List Char) (page_number : PageParam) :
    CategoryListView_dispatch db cats now slug page_number = .notFound ↔
      ∀ c ∈ cats, c.slug = slug → c.is_published = false := by
  unfold CategoryListView_dispatch
  cases hf : cats.find? (fun c => c.slug == slug && c.is_published) with
  | none =>
      rw [List.find?_eq_none] at hf
      simp only []
      constructor
      · intro _ c hmem hslug
        have := hf c hmem
        simp [hslug] at this
        exact this
      · intro _
        trivial
  | some cat =>
      have hmem := List.mem_of_find?_eq_some hf
      have hpred := List.find?_some hf
      simp only [Bool.and_eq_true, beq_iff_eq] at hpred
      simp only []
      constructor
      · intro hcontra
        exact absurd hcontra (by simp)
      · intro hall
        have := hall cat hmem hpred.1
        rw [this] at hpred
        exact absurd hpred.2 (by simp)

/-- C7, as stated: a viewer other than the owner should see exactly the
owner's posts satisfying the standard public-visibility predicate.
Refuted: `bob` viewing `alice`'s profile gets an empty listing although
`alice`'s null-category post `nullCatPost` is publicly visible in the
spec's sense — the non-owner branch performs the same inner join on
`category__is_published=True` as the home page. -/
theorem C7_profile_counterexample :
    isPubliclyVisible nullCatPost 100 = true ∧
    nullCatPost.author = alice ∧
    ProfileListView_get_queryset
        { posts := [nullCatPost], comments := [] } [alice, bob]
        bob.username alice.username 100 = some [] := by
  refine ⟨by decide, by decide, by decide⟩

/-- C7 (amended): when the viewer's username equals the profile owner's
username, filtering is skipped and the listing holds all of the owner's
posts; any other viewer gets exactly the owner's posts that are published,
past-dated, and filed under a category that exists and is published (a
null-category post is excluded). -/
theorem C7_profile_listing (db : DB) (users : List User)
    (viewer_username username : List Char) (now : Int) (author : User)
    (hu : users.find? (fun u => u.username == username) = some author) :
    (viewer_username = username →
      ∃ l, ProfileListView_get_queryset db users viewer_username username now
          = some l ∧
        ∀ p, p ∈ l ↔ p ∈ db.posts ∧ p.author = author) ∧
    (viewer_username ≠ username →
      ∃ l, ProfileListView_get_queryset db users viewer_username username now
          = some l ∧
        ∀ p, p ∈ l ↔ p ∈ db.posts ∧ p.author = author ∧
          p.pub_date ≤ now ∧ p.is_published = true ∧
          ∃ c, p.category = some c ∧ c.is_published = true) := by
  unfold ProfileListView_get_queryset
  rw [hu]
  constructor
  · intro hv
    refine ⟨order_by_pub_date_desc
      (db.posts.filter (fun p => p.author == author)), by simp [hv], ?_⟩
    intro p
    rw [mem_order_by_pub_date_desc, List.mem_filter]
    simp
  · intro hv
    refine ⟨order_by_pub_date_desc (db.posts.filter (fun p =>
      p.author == author && decide (p.pub_date ≤ now) &&
        p.is_published && category_is_published_join p)), by simp [hv], ?_⟩
    intro p
    rw [mem_order_by_pub_date_desc, List.mem_filter]
    simp [category_is_published_join_iff, and_assoc]

/-- Witness for C7: `alice` viewing her own profile in a database holding
only her null-category post sees that post. -/
theorem C7_profile_listing_witness :
    ∃ l, ProfileListView_get_queryset
        { posts := [nullCatPost], comments := [] } [alice, bob]
        alice.username alice.username 100 = some l ∧
      ∀ p, p ∈ l ↔
        p ∈ ({ posts := [nullCatPost], comments := [] } : DB).posts ∧
          p.author = alice := by
  exact (C7_profile_listing { posts := [nullCatPost], comments := [] }
    [alice, bob] alice.username alice.username 100 alice (by decide)).1 rfl

/-- C8: a valid, authenticated create appends exactly one row; reading the
new post back by its id returns a row whose title, text, pub_date,
category and location equal the submitted fields and whose author is the
requesting user — and any author value carried in the request payload is
ignored, the result being identical whatever it is. -/
theorem C8_create_round_trip (db : DB) (user : User) (new_id : Nat)
    (raw : PostRequestData)
    (hclean : PostForm_clean raw.fields.text = .ok ())
    (hfresh : ∀ q ∈ db.posts, q.id ≠ new_id) :
    ∃ p, (PostCreateView_post db (some user) new_id raw).1.posts
        = db.posts ++ [p] ∧
      (PostCreateView_post db (some user) new_id raw).1.posts.find?
        (fun q => q.id == new_id) = some p ∧
      p.title = raw.fields.title ∧ p.text = raw.fields.text ∧
      p.pub_date = raw.fields.pub_date ∧ p.category = raw.fields.category ∧
      p.location = raw.fields.location ∧ p.author = user ∧
      ∀ other : Option User,
        PostCreateView_post db (some user) new_id
            { fields := raw.fields, author_input := other }
          = PostCreateView_post db (some user) new_id raw := by
  have hne : db.posts.find? (fun q => q.id == new_id) = none :=
    List.find?_eq_none.mpr (fun q hq => by simp [hfresh q hq])
  refine ⟨⟨new_id, raw.fields.title, raw.fields.text, raw.fields.pub_date,
      raw.fields.is_published, user, raw.fields.location, raw.fields.category⟩,
    ?_, ?_, rfl, rfl, rfl, rfl, rfl, rfl, fun other => rfl⟩
  · simp [PostCreateView_post, hclean]
  · simp [PostCreateView_post, hclean, List.find?_append, hne]

/-- Witness for C8: `alice` creating a clean post with id 30 in `db2`. -/
theorem C8_create_round_trip_witness :
    ∃ p, (PostCreateView_post db2 (some alice) 30 okPostRaw).1.posts
        = db2.posts ++ [p] ∧
      (PostCreateView_post db2 (some alice) 30 okPostRaw).1.posts.find?
        (fun q => q.id == 30) = some p ∧
      p.title = okPostRaw.fields.title ∧ p.text = okPostRaw.fields.text ∧
      p.pub_date = okPostRaw.fields.pub_date ∧
      p.category = okPostRaw.fields.category ∧
      p.location = okPostRaw.fields.location ∧ p.author = alice ∧
      ∀ other : Option User,
        PostCreateView_post db2 (some alice) 30
            { fields := okPostRaw.fields, author_input := other }
          = PostCreateView_post db2 (some alice) 30 okPostRaw :=
  C8_create_round_trip db2 alice 30 okPostRaw (by rfl) (by decide)

/-- C9: the moderation filter reads only the submitted body text, so a
post whose title contains a blocked word but whose text is clean is
created and updated successfully. -/
theorem C9_title_not_moderated (db : DB) (user : User) (new_id pk : Nat)
    (f : PostFormInput) (ai : Option User) (p : Post)
    (hbad : ∃ w ∈ BAD_WORDS, containsSeq w (f.title.map lowerChar) = true)
    (hclean : PostForm_clean f.text = .ok ())
    (hp : db.posts.find? (fun x => x.id == pk) = some p)
    (hpa : p.author = user) :
    (PostCreateView_post db (some user) new_id ⟨f, ai⟩).1.posts
        = db.posts ++
          [⟨new_id, f.title, f.text, f.pub_date, f.is_published, user,
            f.location, f.category⟩] ∧
    (PostCreateView_post db (some user) new_id ⟨f, ai⟩).2
        = .redirect (.profile user.username) ∧
    PostUpdateView_dispatch db (some user) pk ⟨f, ai⟩
      = ({ db with posts := db.posts.map (fun x =>
            if x.id == pk then updated_post p user ⟨f, ai⟩ else x) },
         .redirect (.post_detail pk)) := by
  refine ⟨?_, ?_, ?_⟩
  · simp [PostCreateView_post, hclean]
  · simp [PostCreateView_post, hclean]
  · simp [PostUpdateView_dispatch, hp, hpa, hclean]

/-- Witness for C9: `alice` updates her post 11 with the title `жопа` and
a clean text; the update is applied. -/
theorem C9_title_not_moderated_witness :
    PostUpdateView_dispatch db2 (some alice) 11 ⟨badTitleInput, none⟩
      = ({ db2 with posts := db2.posts.map (fun x =>
            if x.id == 11 then updated_post catPost alice ⟨badTitleInput, none⟩
            else x) },
         .redirect (.post_detail 11)) :=
  (C9_title_not_moderated db2 alice 30 11 badTitleInput none catPost
    ⟨['ж','о','п','а'], by decide, by decide⟩ (by rfl) (by decide)
    (by decide)).2.2

/-- C10: a post update never changes the author column of the post table:
the ownership guard admits only the stored author, and `form_valid` then
re-stamps that same user.  Stated for every request (guard failures and
validation failures leave the table untouched), assuming distinct primary
keys. -/
theorem C10_update_preserves_author (db : DB) (request_user : Option User)
    (pk : Nat) (raw : PostRequestData)
    (hids : (db.posts.map Post.id).Nodup) :
    (PostUpdateView_dispatch db request_user pk raw).1.posts.map Post.author
      = db.posts.map Post.author := by
  unfold PostUpdateView_dispatch
  cases request_user with
  | none => rfl
  | some user =>
      cases hf : db.posts.find? (fun p => p.id == pk) with
      | none => simp
      | some inst =>
          by_cases hau : inst.author = user
          · simp only [hau, ne_eq, not_true_eq_false, if_false]
            cases hcl : PostForm_clean raw.fields.text with
            | error msg => simp
            | ok u =>
                simp only []
                exact map_author_update db.posts pk inst _ hids hf
                  (by simp [updated_post, hau])
          · simp [hau]

/-- Witness for C10: `alice` successfully updating her post 11 in `db2`
leaves the author column unchanged. -/
theorem C10_update_preserves_author_witness :
    (PostUpdateView_dispatch db2 (some alice) 11 okPostRaw).1.posts.map
        Post.author
      = db2.posts.map Post.author :=
  C10_update_preserves_author db2 (some alice) 11 okPostRaw (by decide)

end GardensPost
